import Mathlib

/-!
Verification of the fast-bookmark bookmark store (FastAPI + SQLAlchemy + SQLite).

The embedding models the sequential semantics of the three HTTP handlers in
src/api/bookmarks.py over the table declared in src/models.py.  The database
table is a list of rows in insertion order; SQLite's rowid allocation for an
INTEGER PRIMARY KEY column is `max existing id + 1`.  Timestamps are model
times (`Nat`).  A crucial detail of src/models.py is reproduced faithfully:
the column defaults are `default=datetime.now()`, i.e. `datetime.now()` is
CALLED once when the model class is defined, so every inserted row reuses that
single class-definition-time value; the wall-clock time of each request never
enters the handlers.  The class-definition timestamp is the `defaultTs`
parameter below, constant across one run of the service.
-/

namespace FastBookmark

/-- A row of the `bookmarks` table (src/models.py, class `BookMarks`):
integer primary key `id`, nullable text `label`, text `url` (stored already in
its canonical encoded form), and the two timestamp columns. -/
structure BookMarks where
  id : Nat
  label : Option String
  url : String
  date_created : Nat
  date_modified : Nat
deriving Repr, DecidableEq

/-- The table contents, in insertion order. -/
abbrev Store := List BookMarks

/-- The largest id present in the table (0 for the empty table). -/
def maxId (db : Store) : Nat :=
  (db.map (·.id)).foldr max 0

/-- The id SQLite assigns to the next inserted row of a table whose primary
key is an INTEGER PRIMARY KEY column: one more than the largest existing id. -/
def freshId (db : Store) : Nat :=
  maxId db + 1

/-- How a Python f-string renders an optional string: `None` prints as the
four characters `None`, a present string prints as itself. -/
def pyStr : Option String → String
  | none => "None"
  | some s => s

/-- Split a character list at the first occurrence of `://`, returning the
scheme part and the remainder, or `none` when no `://` occurs. -/
def splitSchemeAux : List Char → Option (List Char × List Char)
  | [] => none
  | ':' :: '/' :: '/' :: rest => some ([], rest)
  | c :: rest =>
    match splitSchemeAux rest with
    | none => none
    | some (pre, post) => some (c :: pre, post)

/-- Models `AnyHttpUrl(raw).encoded_string()` of pydantic v2 for the simple
already-lowercase URLs handled here: pydantic's URL type (the Rust `url`
crate) always serializes a path, so a URL whose part after `://` has no `/`
gains a trailing `/` (e.g. `https://docs.rs` becomes `https://docs.rs/`);
otherwise the string is returned unchanged. -/
def normalizeUrl (s : String) : String :=
  match splitSchemeAux s.data with
  | some (_scheme, rest) => if rest.contains '/' then s else s ++ "/"
  | none => s

/-- Models pydantic v2 `AnyHttpUrl` acceptance for plain URLs: an `http` or
`https` scheme, the `://` separator, and a nonempty host part. -/
def isValidHttpUrl (s : String) : Bool :=
  match splitSchemeAux s.data with
  | some (scheme, rest) =>
    (scheme == "http".data || scheme == "https".data) && !rest.isEmpty
  | none => false

/-- A `fastapi.HTTPException`: status code plus the `detail` message that
FastAPI serializes as `{"detail": ...}`. -/
structure HTTPError where
  status : Nat
  detail : String
deriving Repr, DecidableEq

/-- The f-string raised on a duplicate URL in `create_item`
(src/api/bookmarks.py line 52), applied to the existing row's fields. -/
def dupDetail (label : Option String) (url : String) : String :=
  "[Server Error] Bookmark with label: " ++ pyStr label ++ " already exists for " ++ url

/-- `POST /bookmarks` handler `create_item` (src/api/bookmarks.py).  Queries
the first row whose stored url equals the request url's encoded string; if one
exists raises 409 with `dupDetail`, otherwise inserts a row with the next id,
the encoded url, and the class-definition-time timestamp defaults
(`defaultTs`), returning the inserted row. -/
def create_item (defaultTs : Nat) (db : Store) (label : Option String) (url : String) :
    Except HTTPError (BookMarks × Store) :=
  match db.find? (fun r => r.url == normalizeUrl url) with
  | some bm => .error ⟨409, dupDetail bm.label bm.url⟩
  | none =>
    let nb : BookMarks :=
      { id := freshId db, label := label, url := normalizeUrl url,
        date_created := defaultTs, date_modified := defaultTs }
    .ok (nb, db ++ [nb])

/-- `DELETE /bookmarks/{id}` handler `delete_item` (src/api/bookmarks.py).
Looks the row up by primary key; raises 404 `Bookmark not found` if absent;
otherwise deletes that row and returns the confirmation f-string
`f"Bookmark Deleted: ID: {bm.id}\t label: {bm.label}\t url: {bm.url}"`
(note: the source has a space after each tab). -/
def delete_item (db : Store) (n : Nat) : Except HTTPError (String × Store) :=
  match db.find? (fun r => r.id == n) with
  | none => .error ⟨404, "Bookmark not found"⟩
  | some bm =>
    .ok ("Bookmark Deleted: ID: " ++ toString bm.id ++ "\t label: " ++ pyStr bm.label
          ++ "\t url: " ++ bm.url,
        db.eraseP (fun r => r.id == n))

/-- `GET /bookmarks` handler `read_items` (src/api/bookmarks.py): the rows in
storage order together with `select count(*)`. -/
def read_items (db : Store) : List BookMarks × Nat :=
  (db, db.length)

/-- One API mutation.  `now` is the wall-clock time at which the request is
served; the handlers never read it (the timestamp columns use the
class-definition default), but it is recorded to state timing claims. -/
inductive Op where
  | create (now : Nat) (label : Option String) (url : String)
  | delete (now : Nat) (n : Nat)
deriving Repr, DecidableEq

/-- Apply one operation to the store: a handler error (409/404) leaves the
store unchanged, a success commits the new store. -/
def applyOp (defaultTs : Nat) (db : Store) : Op → Store
  | .create _ label url =>
    match create_item defaultTs db label url with
    | .ok (_, db') => db'
    | .error _ => db
  | .delete _ n =>
    match delete_item db n with
    | .ok (_, db') => db'
    | .error _ => db

/-- The store reached from the empty table by a sequence of operations within
one run of the service (one shared `defaultTs`). -/
def runOps (defaultTs : Nat) (ops : List Op) : Store :=
  ops.foldl (applyOp defaultTs) []

/-- Run a list of create requests ((label, url) pairs) in order, with no
intervening deletes, collecting the id each successful call returns; `none` if
any call fails. -/
def createRun (defaultTs : Nat) (db : Store) :
    List (Option String × String) → Option (List Nat × Store)
  | [] => some ([], db)
  | (label, url) :: reqs =>
    match create_item defaultTs db label url with
    | .error _ => none
    | .ok (nb, db') =>
      match createRun defaultTs db' reqs with
      | none => none
      | some (ids, dbf) => some (nb.id :: ids, dbf)

/-- One JSON field of a request body: the key may be absent, null, or a
string. -/
inductive JsonField where
  | absent
  | null
  | str (s : String)
deriving Repr, DecidableEq

/-- The fields of a `POST /bookmarks` request body that the `BookmarkBase`
model looks at. -/
structure RawBody where
  label : JsonField
  url : JsonField
deriving Repr, DecidableEq

/-- The validated `BookmarkBase` pydantic model (src/api/bookmarks.py):
`label: Optional[str]`, `url: AnyHttpUrl`. -/
structure BookmarkBase where
  label : Option String
  url : String
deriving Repr, DecidableEq

/-- Pydantic v2 validation of `BookmarkBase` (`none` means a 422 validation
error).  Under pydantic v2 — the repository imports `pydantic_settings`, which
only exists for pydantic v2 — an annotation `Optional[str]` WITHOUT a default
is a required field that merely accepts `null`, so a body whose `label` key is
absent is rejected; `url` must be present, non-null, and parse as an http(s)
URL. -/
def BookmarkBase.validate (b : RawBody) : Option BookmarkBase :=
  match b.label, b.url with
  | .absent, _ => none
  | _, .absent => none
  | _, .null => none
  | .null, .str u => if isValidHttpUrl u then some ⟨none, u⟩ else none
  | .str s, .str u => if isValidHttpUrl u then some ⟨some s, u⟩ else none

/-! ### Helper lemmas -/

theorem maxId_nil : maxId [] = 0 :=
  rfl

theorem maxId_cons (x : BookMarks) (l : Store) : maxId (x :: l) = max x.id (maxId l) :=
  rfl

theorem le_maxId (db : Store) : ∀ b ∈ db, b.id ≤ maxId db := by
  induction db with
  | nil => intro b h; cases h
  | cons x l ih =>
    intro b h
    rw [maxId_cons]
    rcases List.mem_cons.mp h with rfl | h
    · exact Nat.le_max_left _ _
    · exact Nat.le_trans (ih b h) (Nat.le_max_right _ _)

theorem maxId_append (db : Store) (b : BookMarks) :
    maxId (db ++ [b]) = max (maxId db) b.id := by
  induction db with
  | nil => rw [List.nil_append, maxId_cons, maxId_nil]; omega
  | cons x l ih => rw [List.cons_append, maxId_cons, ih, maxId_cons]; omega

theorem freshId_not_mem (db : Store) : freshId db ∉ db.map (·.id) := by
  intro h
  obtain ⟨b, hb, hid⟩ := List.mem_map.mp h
  have := le_maxId db b hb
  simp only [freshId] at hid
  omega

theorem create_item_ok (ts : Nat) (db : Store) (label : Option String) (url : String)
    (h : normalizeUrl url ∉ db.map (·.url)) :
    create_item ts db label url =
      .ok (⟨freshId db, label, normalizeUrl url, ts, ts⟩,
           db ++ [⟨freshId db, label, normalizeUrl url, ts, ts⟩]) := by
  have hfind : db.find? (fun r => r.url == normalizeUrl url) = none := by
    rw [List.find?_eq_none]
    intro x hx hbeq
    exact h (List.mem_map.mpr ⟨x, hx, eq_of_beq hbeq⟩)
  simp [create_item, hfind]

theorem create_item_dup (ts : Nat) (db : Store) (label : Option String) (url : String)
    (h : normalizeUrl url ∈ db.map (·.url)) :
    ∃ bm, db.find? (fun r => r.url == normalizeUrl url) = some bm ∧ bm ∈ db ∧
      bm.url = normalizeUrl url ∧
      create_item ts db label url = .error ⟨409, dupDetail bm.label bm.url⟩ := by
  obtain ⟨x, hx, hxu⟩ := List.mem_map.mp h
  have hne : db.find? (fun r => r.url == normalizeUrl url) ≠ none := by
    intro hnone
    exact (List.find?_eq_none.mp hnone) x hx (by simp [hxu])
  obtain ⟨bm, hbm⟩ := Option.ne_none_iff_exists'.mp hne
  have hp := List.find?_some hbm
  simp only [beq_iff_eq] at hp
  refine ⟨bm, hbm, List.mem_of_find?_eq_some hbm, hp, ?_⟩
  simp [create_item, hbm]

theorem create_item_ok_shape (ts : Nat) (db : Store) (label : Option String) (url : String)
    (nb : BookMarks) (db' : Store) (h : create_item ts db label url = .ok (nb, db')) :
    nb.date_created = ts ∧ nb.date_modified = ts ∧ db' = db ++ [nb] := by
  by_cases hmem : normalizeUrl url ∈ db.map (·.url)
  · obtain ⟨bm, -, -, -, herr⟩ := create_item_dup ts db label url hmem
    rw [herr] at h
    cases h
  · rw [create_item_ok ts db label url hmem] at h
    obtain ⟨h1, h2⟩ := Prod.mk.injEq .. ▸ Except.ok.inj h
    subst h1
    subst h2
    exact ⟨rfl, rfl, rfl⟩

theorem delete_item_ok_shape (db : Store) (n : Nat) (msg : String) (db' : Store)
    (h : delete_item db n = .ok (msg, db')) :
    db' = db.eraseP (fun r => r.id == n) := by
  unfold delete_item at h
  cases hfind : db.find? (fun r => r.id == n) with
  | none => rw [hfind] at h; cases h
  | some bm =>
    rw [hfind] at h
    obtain ⟨-, h2⟩ := Prod.mk.injEq .. ▸ Except.ok.inj h
    exact h2.symm

theorem runOps_invariant (ts : Nat) (P : Store → Prop)
    (hstep : ∀ db op, P db → P (applyOp ts db op)) (hnil : P ([] : Store))
    (ops : List Op) : P (runOps ts ops) := by
  have key : ∀ (ops : List Op) (db : Store), P db → P (ops.foldl (applyOp ts) db) := by
    intro ops
    induction ops with
    | nil => intro db h; exact h
    | cons op ops ih => intro db h; exact ih (applyOp ts db op) (hstep db op h)
  exact key ops [] hnil

theorem mem_applyOp (ts : Nat) (db : Store) (op : Op) (b : BookMarks)
    (hb : b ∈ applyOp ts db op) :
    b ∈ db ∨ (b.date_created = ts ∧ b.date_modified = ts) := by
  cases op with
  | create now label url =>
    simp only [applyOp] at hb
    cases hc : create_item ts db label url with
    | error e => rw [hc] at hb; exact .inl hb
    | ok p =>
      obtain ⟨nb, db'⟩ := p
      rw [hc] at hb
      obtain ⟨h1, h2, h3⟩ := create_item_ok_shape ts db label url nb db' hc
      have hb' : b ∈ db' := hb
      rw [h3] at hb'
      rcases List.mem_append.mp hb' with h | h
      · exact .inl h
      · rw [List.mem_singleton.mp h]
        exact .inr ⟨h1, h2⟩
  | delete now n =>
    simp only [applyOp] at hb
    cases hd : delete_item db n with
    | error e => rw [hd] at hb; exact .inl hb
    | ok p =>
      obtain ⟨msg, db'⟩ := p
      rw [hd] at hb
      have hsh := delete_item_ok_shape db n msg db' hd
      have hb' : b ∈ db' := hb
      rw [hsh] at hb'
      exact .inl (List.mem_of_mem_eraseP hb')

theorem urls_nodup_applyOp (ts : Nat) (db : Store) (op : Op)
    (h : (db.map (·.url)).Nodup) : ((applyOp ts db op).map (·.url)).Nodup := by
  cases op with
  | create now label url =>
    by_cases hmem : normalizeUrl url ∈ db.map (·.url)
    · obtain ⟨bm, -, -, -, herr⟩ := create_item_dup ts db label url hmem
      simp only [applyOp, herr]
      exact h
    · simp only [applyOp, create_item_ok ts db label url hmem, List.map_append,
        List.map_cons, List.map_nil]
      refine List.nodup_append.mpr ⟨h, List.nodup_singleton _, ?_⟩
      intro u hu1 hu2
      rw [List.mem_singleton.mp hu2] at hu1
      exact hmem hu1
  | delete now n =>
    simp only [applyOp]
    cases hd : delete_item db n with
    | error e => exact h
    | ok p =>
      obtain ⟨msg, db'⟩ := p
      show ((db'.map (·.url)).Nodup)
      rw [delete_item_ok_shape db n msg db' hd]
      exact List.Nodup.sublist (List.Sublist.map _ (List.eraseP_sublist db)) h

theorem ids_nodup_applyOp (ts : Nat) (db : Store) (op : Op)
    (h : (db.map (·.id)).Nodup) : ((applyOp ts db op).map (·.id)).Nodup := by
  cases op with
  | create now label url =>
    by_cases hmem : normalizeUrl url ∈ db.map (·.url)
    · obtain ⟨bm, -, -, -, herr⟩ := create_item_dup ts db label url hmem
      simp only [applyOp, herr]
      exact h
    · simp only [applyOp, create_item_ok ts db label url hmem, List.map_append,
        List.map_cons, List.map_nil]
      refine List.nodup_append.mpr ⟨h, List.nodup_singleton _, ?_⟩
      intro i hi1 hi2
      rw [List.mem_singleton.mp hi2] at hi1
      exact freshId_not_mem db hi1
  | delete now n =>
    simp only [applyOp]
    cases hd : delete_item db n with
    | error e => exact h
    | ok p =>
      obtain ⟨msg, db'⟩ := p
      show ((db'.map (·.id)).Nodup)
      rw [delete_item_ok_shape db n msg db' hd]
      exact List.Nodup.sublist (List.Sublist.map _ (List.eraseP_sublist db)) h

theorem urls_nodup_runOps (ts : Nat) (ops : List Op) :
    ((runOps ts ops).map (·.url)).Nodup :=
  runOps_invariant ts (fun db => (db.map (·.url)).Nodup)
    (urls_nodup_applyOp ts) List.nodup_nil ops

theorem ids_nodup_runOps (ts : Nat) (ops : List Op) :
    ((runOps ts ops).map (·.id)).Nodup :=
  runOps_invariant ts (fun db => (db.map (·.id)).Nodup)
    (ids_nodup_applyOp ts) List.nodup_nil ops

theorem mem_runOps_timestamps (ts : Nat) (ops : List Op) :
    ∀ b ∈ runOps ts ops, b.date_created = ts ∧ b.date_modified = ts := by
  refine runOps_invariant ts
    (fun db => ∀ b ∈ db, b.date_created = ts ∧ b.date_modified = ts) ?_ ?_ ops
  · intro db op hdb b hb
    rcases mem_applyOp ts db op b hb with h | h
    · exact hdb b h
    · exact h
  · intro b hb
    cases hb

theorem find?_id_of_mem (db : Store) (hnd : (db.map (·.id)).Nodup) (bm : BookMarks)
    (hm : bm ∈ db) : db.find? (fun r => r.id == bm.id) = some bm := by
  induction db with
  | nil => cases hm
  | cons x l ih =>
    rw [List.map_cons, List.nodup_cons] at hnd
    rcases List.mem_cons.mp hm with rfl | hm
    · exact List.find?_cons_of_pos l (by simp)
    · have hpx : ¬ ((fun r => r.id == bm.id) x = true) := by
        simp only [beq_iff_eq]
        intro he
        exact hnd.1 (by rw [he]; exact List.mem_map.mpr ⟨bm, hm, rfl⟩)
      rw [List.find?_cons_of_neg l hpx]
      exact ih hnd.2 hm

theorem mem_eraseP_id_iff (db : Store) (n : Nat) (hnd : (db.map (·.id)).Nodup)
    (b : BookMarks) :
    b ∈ db.eraseP (fun r => r.id == n) ↔ b ∈ db ∧ b.id ≠ n := by
  induction db with
  | nil => simp
  | cons x l ih =>
    rw [List.map_cons, List.nodup_cons] at hnd
    by_cases hx : x.id = n
    · rw [List.eraseP_cons_of_pos (by simp [hx])]
      constructor
      · intro hb
        refine ⟨List.mem_cons_of_mem _ hb, ?_⟩
        intro hbn
        exact hnd.1 (by rw [hx, ← hbn]; exact List.mem_map.mpr ⟨b, hb, rfl⟩)
      · rintro ⟨hb, hbn⟩
        rcases List.mem_cons.mp hb with rfl | hb
        · exact absurd hx hbn
        · exact hb
    · rw [List.eraseP_cons_of_neg (by simp [hx])]
      rw [List.mem_cons, ih hnd.2, List.mem_cons]
      constructor
      · rintro (rfl | ⟨hb, hbn⟩)
        · exact ⟨Or.inl rfl, hx⟩
        · exact ⟨Or.inr hb, hbn⟩
      · rintro ⟨rfl | hb, hbn⟩
        · exact Or.inl rfl
        · exact Or.inr ⟨hb, hbn⟩

theorem createRun_spec (ts : Nat) :
    ∀ (reqs : List (Option String × String)) (db : Store),
      (reqs.map (fun r => normalizeUrl r.2)).Nodup →
      (∀ r ∈ reqs, normalizeUrl r.2 ∉ db.map (·.url)) →
      ∃ ids dbf, createRun ts db reqs = some (ids, dbf) ∧
        ids.Pairwise (· < ·) ∧ ∀ i ∈ ids, maxId db < i := by
  intro reqs
  induction reqs with
  | nil =>
    intro db _ _
    exact ⟨[], db, rfl, List.Pairwise.nil, by intro i h; cases h⟩
  | cons r reqs ih =>
    obtain ⟨label, url⟩ := r
    intro db hnd hdisj
    rw [List.map_cons, List.nodup_cons] at hnd
    have hmem : normalizeUrl url ∉ db.map (·.url) := by
      have := hdisj (label, url) (List.mem_cons_self _ _)
      exact this
    have hok := create_item_ok ts db label url hmem
    set nb : BookMarks :=
      { id := freshId db, label := label, url := normalizeUrl url,
        date_created := ts, date_modified := ts } with hnb
    have hid : nb.id = maxId db + 1 := by rw [hnb]; rfl
    have hdisj' : ∀ r ∈ reqs, normalizeUrl r.2 ∉ ((db ++ [nb]).map (·.url)) := by
      intro r hr hmem'
      rw [List.map_append] at hmem'
      rcases List.mem_append.mp hmem' with hcase | hcase
      · exact hdisj r (List.mem_cons_of_mem _ hr) hcase
      · have heq : normalizeUrl r.2 = normalizeUrl url := by simpa [hnb] using hcase
        exact hnd.1 (by rw [← heq]; exact List.mem_map.mpr ⟨r, hr, rfl⟩)
    obtain ⟨ids, dbf, hrun, hpw, hgt⟩ := ih (db ++ [nb]) hnd.2 hdisj'
    refine ⟨nb.id :: ids, dbf, ?_, ?_, ?_⟩
    · simp only [createRun, hok, hrun]
    · rw [List.pairwise_cons]
      refine ⟨?_, hpw⟩
      intro i hi
      have := hgt i hi
      rw [maxId_append] at this
      omega
    · intro i hi
      rcases List.mem_cons.mp hi with rfl | hi
      · omega
      · have := hgt i hi
        rw [maxId_append] at this
        omega

theorem find?_url_append_singleton (db : Store) (nb : BookMarks) (u : String)
    (h : u ∉ db.map (·.url)) (hu : nb.url = u) :
    (db ++ [nb]).find? (fun r => r.url == u) = some nb := by
  rw [List.find?_append]
  have h1 : db.find? (fun r => r.url == u) = none := by
    rw [List.find?_eq_none]
    intro x hx hbeq
    exact h (List.mem_map.mpr ⟨x, hx, eq_of_beq hbeq⟩)
  rw [h1, Option.none_or]
  exact List.find?_cons_of_pos _ (by simp [hu])

/-! ### Claim theorems -/

/-- Claim C1: in every store state reachable from the empty store by any
sequence of create and delete operations applied sequentially, no two live
bookmarks share the same normalized `url` value (the stored url column holds
exactly the normalized urls, and they are pairwise distinct). -/
theorem urlUniqueness_invariant (ts : Nat) (ops : List Op) :
    ((runOps ts ops).map (·.url)).Nodup :=
  urls_nodup_runOps ts ops

/-- Claim C2: if some existing bookmark's stored url equals the request url
after normalization, create fails with HTTP 409 whose detail is the duplicate
message built from the existing bookmark's label and url, and the store is
unchanged — the bookmark count does not increase and no row is modified. -/
theorem duplicate_create_conflict (ts now : Nat) (db : Store) (label : Option String)
    (url : String) (h : ∃ b ∈ db, b.url = normalizeUrl url) :
    ∃ bm, bm ∈ db ∧ bm.url = normalizeUrl url ∧
      create_item ts db label url =
        .error ⟨409, "[Server Error] Bookmark with label: " ++ pyStr bm.label ++
          " already exists for " ++ bm.url⟩ ∧
      applyOp ts db (Op.create now label url) = db ∧
      (read_items (applyOp ts db (Op.create now label url))).2 = (read_items db).2 := by
  obtain ⟨x, hx, hxu⟩ := h
  have hmem : normalizeUrl url ∈ db.map (·.url) := List.mem_map.mpr ⟨x, hx, hxu⟩
  obtain ⟨bm, hfind, hbm, hburl, herr⟩ := create_item_dup ts db label url hmem
  have hap : applyOp ts db (Op.create now label url) = db := by
    simp only [applyOp, herr]
  exact ⟨bm, hbm, hburl, herr, hap, by rw [hap]⟩

/-- Claim C3 (code bug): the spec says a successful create sets both
timestamps to the current time of that call, but src/models.py declares the
column defaults as `default=datetime.now()`, calling `datetime.now()` once at
class-definition time; a create served at wall-clock time 5 in a run whose
class-definition timestamp is 0 therefore stores timestamps 0, not 5.
(`date_created` is indeed never changed afterwards — no operation writes it —
but the set-at-call-time half of the claim fails.) -/
theorem timestamps_fixed_at_class_definition :
    (runOps 0 [Op.create 5 (some "Docs") "https://docs.rs"]).map (·.date_created) = [0] ∧
    (runOps 0 [Op.create 5 (some "Docs") "https://docs.rs"]).map (·.date_modified) = [0] ∧
    runOps 0 [Op.create 5 (some "Docs") "https://docs.rs"] =
      [⟨1, some "Docs", "https://docs.rs/", 0, 0⟩] := by
  decide

/-- Claim C4 (code bug): the spec declares `label` optional, but under
pydantic v2 the annotation `label: Optional[str]` without a default makes the
field required (merely nullable), so a body containing only a well-formed URL
and no `label` key is rejected as malformed input (422) even though the same
URL passes validation when `label` is present as null; the store itself never
computes a label (a null label is stored as null). -/
theorem omitted_label_rejected :
    BookmarkBase.validate ⟨JsonField.absent, JsonField.str "https://example.com"⟩ = none ∧
    isValidHttpUrl "https://example.com" = true ∧
    BookmarkBase.validate ⟨JsonField.null, JsonField.str "https://example.com"⟩ =
      some ⟨none, "https://example.com"⟩ ∧
    (runOps 0 [Op.create 0 none "https://example.com"]).map (·.label) = [none] := by
  decide

/-- Claim C5: deleting an id that is present in a reachable store removes
exactly that record — the listAll count drops by exactly one, the id no
longer appears in the listed sequence, and every other bookmark is kept
unchanged. -/
theorem delete_removes_exactly_one (ts : Nat) (ops : List Op) (n : Nat) (bm : BookMarks)
    (hmem : bm ∈ runOps ts ops) (hid : bm.id = n) :
    ∃ msg db', delete_item (runOps ts ops) n = .ok (msg, db') ∧
      (read_items db').2 + 1 = (read_items (runOps ts ops)).2 ∧
      n ∉ (read_items db').1.map (·.id) ∧
      ∀ b, b ∈ db' ↔ b ∈ runOps ts ops ∧ b.id ≠ n := by
  subst hid
  have hnd := ids_nodup_runOps ts ops
  have hfind := find?_id_of_mem (runOps ts ops) hnd bm hmem
  have hdel : delete_item (runOps ts ops) bm.id =
      .ok ("Bookmark Deleted: ID: " ++ toString bm.id ++ "\t label: " ++ pyStr bm.label
            ++ "\t url: " ++ bm.url,
          (runOps ts ops).eraseP (fun r => r.id == bm.id)) := by
    unfold delete_item
    rw [hfind]
  refine ⟨_, _, hdel, ?_, ?_, ?_⟩
  · have hlen := List.length_eraseP_of_mem hmem
      (p := fun r => r.id == bm.id) (by simp)
    have hpos := List.length_pos_of_mem hmem
    simp only [read_items]
    omega
  · intro hin
    simp only [read_items] at hin
    obtain ⟨b, hb, hbid⟩ := List.mem_map.mp hin
    exact ((mem_eraseP_id_iff (runOps ts ops) bm.id hnd b).mp hb).2 hbid
  · intro b
    exact mem_eraseP_id_iff (runOps ts ops) bm.id hnd b

/-- Claim C6: deleting an id with no bookmark in the store (the empty store
included) fails with HTTP 404 and detail `Bookmark not found`, and leaves the
store unchanged. -/
theorem delete_missing_id_not_found (ts now : Nat) (db : Store) (n : Nat)
    (h : ∀ b ∈ db, b.id ≠ n) :
    delete_item db n = .error ⟨404, "Bookmark not found"⟩ ∧
    applyOp ts db (Op.delete now n) = db := by
  have hfind : db.find? (fun r => r.id == n) = none := by
    rw [List.find?_eq_none]
    intro x hx hbeq
    exact h x hx (eq_of_beq hbeq)
  constructor
  · unfold delete_item
    rw [hfind]
  · simp [applyOp, delete_item, hfind]

/-- Claim C7 counterexample: on a store holding the bookmark (1, "a",
"https://a.com/") the delete handler returns the string with a SPACE after
each tab, which differs from the claimed body with the tab immediately
followed by `label:`/`url:`. -/
theorem delete_confirmation_format_cex :
    delete_item [⟨1, some "a", "https://a.com/", 0, 0⟩] 1 =
      .ok ("Bookmark Deleted: ID: 1\t label: a\t url: https://a.com/", []) ∧
    "Bookmark Deleted: ID: 1\t label: a\t url: https://a.com/" ≠
      "Bookmark Deleted: ID: 1\tlabel: a\turl: https://a.com/" :=
  ⟨rfl, by decide⟩

/-- Claim C7 (amended): every successful delete of the bookmark found for the
given id returns the confirmation body `Bookmark Deleted: ID: {id}`, a tab, a
space, `label: {label}`, a tab, a space, and `url: {url}`, with the deleted
bookmark's fields substituted. -/
theorem delete_confirmation_format (db : Store) (n : Nat) (bm : BookMarks)
    (hfind : db.find? (fun r => r.id == n) = some bm) :
    ∃ db', delete_item db n =
      .ok ("Bookmark Deleted: ID: " ++ toString bm.id ++ "\t label: " ++ pyStr bm.label
            ++ "\t url: " ++ bm.url, db') :=
  ⟨_, by unfold delete_item; rw [hfind]⟩

/-- Claim C8: a sequence of create calls whose normalized URLs are pairwise
distinct and absent from the starting store, with no intervening deletes, all
succeed, and the returned ids are strictly increasing in call order. -/
theorem distinct_creates_increasing_ids (ts : Nat) (reqs : List (Option String × String))
    (db : Store) (hnd : (reqs.map (fun r => normalizeUrl r.2)).Nodup)
    (hdisj : ∀ r ∈ reqs, normalizeUrl r.2 ∉ db.map (·.url)) :
    ∃ ids dbf, createRun ts db reqs = some (ids, dbf) ∧ ids.Pairwise (· < ·) := by
  obtain ⟨ids, dbf, h1, h2, -⟩ := createRun_spec ts reqs db hnd hdisj
  exact ⟨ids, dbf, h1, h2⟩

/-- Claim C9: from any store not containing the normalized form of
`https://docs.rs`, creating (Docs, https://docs.rs) succeeds and then creating
(Docs2, https://docs.rs) fails with HTTP 409 whose message names the label
`Docs` and the url `https://docs.rs` (the stored url it prints is the
normalized `https://docs.rs/`, which contains `https://docs.rs`). -/
theorem docs_rs_duplicate_scenario (ts : Nat) (db : Store)
    (h : normalizeUrl "https://docs.rs" ∉ db.map (·.url)) :
    ∃ bm db1, create_item ts db (some "Docs") "https://docs.rs" = .ok (bm, db1) ∧
      create_item ts db1 (some "Docs2") "https://docs.rs" =
        .error ⟨409,
          "[Server Error] Bookmark with label: Docs already exists for https://docs.rs/"⟩ ∧
      (∃ a b, "[Server Error] Bookmark with label: Docs already exists for https://docs.rs/"
          = a ++ "Docs" ++ b) ∧
      (∃ c d, "[Server Error] Bookmark with label: Docs already exists for https://docs.rs/"
          = c ++ "https://docs.rs" ++ d) := by
  have hok := create_item_ok ts db (some "Docs") "https://docs.rs" h
  refine ⟨_, _, hok, ?_, ?_, ?_⟩
  · have hone := find?_url_append_singleton db
      ⟨freshId db, some "Docs", normalizeUrl "https://docs.rs", ts, ts⟩
      (normalizeUrl "https://docs.rs") h rfl
    unfold create_item
    rw [hone]
    rfl
  · exact ⟨"[Server Error] Bookmark with label: ",
      " already exists for https://docs.rs/", by decide⟩
  · exact ⟨"[Server Error] Bookmark with label: Docs already exists for ", "/", by decide⟩

/-- Claim C10 (implicit, confirmed): any two bookmarks created during a single
run of the service carry equal `date_created` values and equal `date_modified`
values, because the column defaults in src/models.py are evaluated once when
the model class is defined, not once per insert. -/
theorem single_run_timestamps_equal (ts : Nat) (ops : List Op) (b1 b2 : BookMarks)
    (h1 : b1 ∈ runOps ts ops) (h2 : b2 ∈ runOps ts ops) :
    b1.date_created = b2.date_created ∧ b1.date_modified = b2.date_modified := by
  obtain ⟨hc1, hm1⟩ := mem_runOps_timestamps ts ops b1 h1
  obtain ⟨hc2, hm2⟩ := mem_runOps_timestamps ts ops b2 h2
  rw [hc1, hm1, hc2, hm2]
  exact ⟨rfl, rfl⟩

/-! ### Witnesses -/

/-- Witness for the C2 theorem at a concrete one-row store. -/
theorem duplicate_create_conflict_witness :
    (∃ b ∈ ([⟨1, some "Docs", "https://docs.rs/", 0, 0⟩] : Store),
        b.url = normalizeUrl "https://docs.rs") ∧
    ∃ bm, bm ∈ ([⟨1, some "Docs", "https://docs.rs/", 0, 0⟩] : Store) ∧
      bm.url = normalizeUrl "https://docs.rs" ∧
      create_item 0 [⟨1, some "Docs", "https://docs.rs/", 0, 0⟩]
          (some "Docs2") "https://docs.rs" =
        .error ⟨409, "[Server Error] Bookmark with label: " ++ pyStr bm.label ++
          " already exists for " ++ bm.url⟩ ∧
      applyOp 0 [⟨1, some "Docs", "https://docs.rs/", 0, 0⟩]
          (Op.create 7 (some "Docs2") "https://docs.rs") =
        [⟨1, some "Docs", "https://docs.rs/", 0, 0⟩] ∧
      (read_items (applyOp 0 [⟨1, some "Docs", "https://docs.rs/", 0, 0⟩]
          (Op.create 7 (some "Docs2") "https://docs.rs"))).2 =
        (read_items ([⟨1, some "Docs", "https://docs.rs/", 0, 0⟩] : Store)).2 :=
  ⟨by decide, duplicate_create_conflict 0 7 [⟨1, some "Docs", "https://docs.rs/", 0, 0⟩]
    (some "Docs2") "https://docs.rs" (by decide)⟩

/-- Witness for the C5 theorem on the store reached by one create. -/
theorem delete_removes_exactly_one_witness :
    (⟨1, some "a", "https://a.com/", 4, 4⟩ : BookMarks) ∈
        runOps 4 [Op.create 2 (some "a") "https://a.com"] ∧
    ∃ msg db', delete_item (runOps 4 [Op.create 2 (some "a") "https://a.com"]) 1 =
        .ok (msg, db') ∧
      (read_items db').2 + 1 =
        (read_items (runOps 4 [Op.create 2 (some "a") "https://a.com"])).2 ∧
      1 ∉ (read_items db').1.map (·.id) ∧
      ∀ b, b ∈ db' ↔ b ∈ runOps 4 [Op.create 2 (some "a") "https://a.com"] ∧ b.id ≠ 1 :=
  ⟨by decide, delete_removes_exactly_one 4 [Op.create 2 (some "a") "https://a.com"] 1
    ⟨1, some "a", "https://a.com/", 4, 4⟩ (by decide) rfl⟩

/-- Witness for the C6 theorem: deleting id 999 on the empty store. -/
theorem delete_missing_id_not_found_witness :
    (∀ b ∈ ([] : Store), b.id ≠ 999) ∧
    delete_item [] 999 = .error ⟨404, "Bookmark not found"⟩ ∧
    applyOp 0 [] (Op.delete 0 999) = [] :=
  ⟨by decide, delete_missing_id_not_found 0 0 [] 999 (by decide)⟩

/-- Witness for the amended C7 theorem at a concrete one-row store. -/
theorem delete_confirmation_format_witness :
    ([⟨2, some "x", "https://x.io/", 1, 1⟩] : Store).find? (fun r => r.id == 2) =
        some ⟨2, some "x", "https://x.io/", 1, 1⟩ ∧
    ∃ db', delete_item [⟨2, some "x", "https://x.io/", 1, 1⟩] 2 =
      .ok ("Bookmark Deleted: ID: " ++
            toString (⟨2, some "x", "https://x.io/", 1, 1⟩ : BookMarks).id ++
            "\t label: " ++ pyStr (⟨2, some "x", "https://x.io/", 1, 1⟩ : BookMarks).label ++
            "\t url: " ++ (⟨2, some "x", "https://x.io/", 1, 1⟩ : BookMarks).url, db') :=
  ⟨by decide, delete_confirmation_format [⟨2, some "x", "https://x.io/", 1, 1⟩] 2
    ⟨2, some "x", "https://x.io/", 1, 1⟩ (by decide)⟩

/-- Witness for the C8 theorem: two creates with distinct URLs from the empty
store. -/
theorem distinct_creates_increasing_ids_witness :
    (([((some "a" : Option String), "https://a.com"),
        (some "b", "https://b.com")].map (fun r => normalizeUrl r.2)).Nodup) ∧
    (∀ r ∈ [((some "a" : Option String), "https://a.com"), (some "b", "https://b.com")],
        normalizeUrl r.2 ∉ ([] : Store).map (·.url)) ∧
    ∃ ids dbf, createRun 0 []
        [((some "a" : Option String), "https://a.com"), (some "b", "https://b.com")] =
        some (ids, dbf) ∧ ids.Pairwise (· < ·) :=
  ⟨by decide, by decide, distinct_creates_increasing_ids 0
    [((some "a" : Option String), "https://a.com"), (some "b", "https://b.com")] []
    (by decide) (by decide)⟩

/-- Witness for the C9 theorem: the scenario run from the empty store. -/
theorem docs_rs_duplicate_scenario_witness :
    (normalizeUrl "https://docs.rs" ∉ ([] : Store).map (·.url)) ∧
    ∃ bm db1, create_item 0 [] (some "Docs") "https://docs.rs" = .ok (bm, db1) ∧
      create_item 0 db1 (some "Docs2") "https://docs.rs" =
        .error ⟨409,
          "[Server Error] Bookmark with label: Docs already exists for https://docs.rs/"⟩ ∧
      (∃ a b, "[Server Error] Bookmark with label: Docs already exists for https://docs.rs/"
          = a ++ "Docs" ++ b) ∧
      (∃ c d, "[Server Error] Bookmark with label: Docs already exists for https://docs.rs/"
          = c ++ "https://docs.rs" ++ d) :=
  ⟨by decide, docs_rs_duplicate_scenario 0 [] (by decide)⟩

/-- Witness for the C10 theorem on a run with two creates at different call
times. -/
theorem single_run_timestamps_equal_witness :
    (⟨1, some "a", "https://a.com/", 4, 4⟩ : BookMarks) ∈
        runOps 4 [Op.create 3 (some "a") "https://a.com",
          Op.create 9 (some "b") "https://b.com"] ∧
    (⟨2, some "b", "https://b.com/", 4, 4⟩ : BookMarks) ∈
        runOps 4 [Op.create 3 (some "a") "https://a.com",
          Op.create 9 (some "b") "https://b.com"] ∧
    ((⟨1, some "a", "https://a.com/", 4, 4⟩ : BookMarks).date_created =
        (⟨2, some "b", "https://b.com/", 4, 4⟩ : BookMarks).date_created ∧
      (⟨1, some "a", "https://a.com/", 4, 4⟩ : BookMarks).date_modified =
        (⟨2, some "b", "https://b.com/", 4, 4⟩ : BookMarks).date_modified) :=
  ⟨by decide, by decide, single_run_timestamps_equal 4
    [Op.create 3 (some "a") "https://a.com", Op.create 9 (some "b") "https://b.com"]
    ⟨1, some "a", "https://a.com/", 4, 4⟩ ⟨2, some "b", "https://b.com/", 4, 4⟩
    (by decide) (by decide)⟩

end FastBookmark
